import Mathlib

/-!
Shallow embedding of the recurring/spontaneous financial event processor of the
WE-SPEND-WISE backend (Node.js / Express / Mongoose), covering:

- the cycle calculator (`shouldProcessIncome` / `shouldProcessExpense` and the
  `updateRelaxationDate` instance methods of the Income and Expense models),
- the batch driver loops of `src/utils/cronJobs.js`
  (`checkIncomeSources` / `checkExpenseSources`),
- the ledger-mutating route handlers: POST /api/transactions,
  POST /api/incomes, POST /api/expenses, DELETE /api/transactions/:id,
- the wallet / transaction / source document shapes.

Modelling conventions
- JS `Date` values are modelled at day granularity as (year, monthIndex, day)
  triples; `monthIndex` is zero-based as in JS.  Every `Date` the core compares
  against is a local-midnight date (`new Date(y, m, d)`, or `today` after
  `setHours(0,0,0,0)`), and a midnight date compared to a timestamp `now` lying
  in some day satisfies `midnight <= now` exactly when its day triple is <= the
  day triple of `now`; all comparisons in the source are of this shape, so the
  day-granularity model is faithful.
- `new Date(y, m, d)` normalizes month/day overflow (month 12 rolls into the
  next year, day beyond the month length rolls into the next month); `mkJsDate`
  reproduces this for the argument ranges the program uses (m between 0 and 12,
  d between 1 and 31).
- JS numbers carrying money amounts are modelled as exact rationals (`Rat`);
  every arithmetic operation performed on them by the core is addition,
  subtraction or comparison.
- Mongoose documents are records; `Model.create` appends to a list held in the
  store `St`; `save` / `findByIdAndUpdate` replace the entry with the same
  `_id`.  Mongoose runs in strict mode (the default): assigning a path that is
  not declared in the schema is dropped on `save`, and reading such a path
  yields `undefined`.
-/

/-- A JS `Date` at day granularity: zero-based month index, one-based day. -/
structure JDate where
  year : Nat
  month : Nat
  day : Nat
deriving DecidableEq, Repr

/-- Gregorian leap-year rule, as implemented by the JS `Date` object. -/
def isLeap (y : Nat) : Bool :=
  (y % 4 == 0 && y % 100 != 0) || y % 400 == 0

/-- Number of days of zero-based month `m` of year `y` (the default arm is
unreachable for normalized month indexes 0..11). -/
def monthLen (y m : Nat) : Nat :=
  match m with
  | 0 => 31
  | 1 => if isLeap y then 29 else 28
  | 2 => 31
  | 3 => 30
  | 4 => 31
  | 5 => 30
  | 6 => 31
  | 7 => 31
  | 8 => 30
  | 9 => 31
  | 10 => 30
  | _ => 31

/-- Day-overflow normalization of `new Date(year, month, day)`: while the day
exceeds the length of the current month, subtract that length and move to the
next month (rolling the year after December).  The first argument is fuel; the
callers pass the day itself, which bounds the number of rolls. -/
def normDay : Nat → Nat → Nat → Nat → JDate
  | 0, y, m, d => ⟨y, m, d⟩
  | fuel + 1, y, m, d =>
    if d ≤ monthLen y m then ⟨y, m, d⟩
    else if m == 11 then normDay fuel (y + 1) 0 (d - monthLen y m)
    else normDay fuel y (m + 1) (d - monthLen y m)

/-- `new Date(y, m, d)` for the argument shapes used by this program:
months beyond 11 first roll into later years, then day overflow rolls into
later months. -/
def mkJsDate (y m d : Nat) : JDate :=
  normDay d (y + m / 12) (m % 12) d

/-- Timestamp comparison `a <= b` of two local-midnight dates. -/
def dateLe (a b : JDate) : Bool :=
  Nat.blt a.year b.year ||
    (a.year == b.year &&
      (Nat.blt a.month b.month ||
        (a.month == b.month && Nat.ble a.day b.day)))

/-- Timestamp comparison `a < b` of two local-midnight dates. -/
def dateLt (a b : JDate) : Bool :=
  Nat.blt a.year b.year ||
    (a.year == b.year &&
      (Nat.blt a.month b.month ||
        (a.month == b.month && Nat.blt a.day b.day)))

/-- A structurally valid calendar date: normalized month index and a day that
exists in that month. -/
def JDate.Valid (a : JDate) : Prop :=
  a.month ≤ 11 ∧ 1 ≤ a.day ∧ a.day ≤ monthLen a.year a.month

instance (a : JDate) : Decidable a.Valid := by
  unfold JDate.Valid; infer_instance

/-- The `cycleType` enum shared by the Income and Expense schemas. -/
inductive CycleType where
  | monthly
  | quarterly
  | yearly
deriving DecidableEq, Repr

/-- The `updateRelaxationDate` instance method (identical in the Income model
and the Expense model): computes the next occurrence date from the current
moment `now` and stores it in `relaxationDate`.  This is the pure date
computation; persisting it is done by the callers in the store model. -/
def updateRelaxationDate (ct : CycleType) (cycleDate : Nat) (now : JDate) : JDate :=
  match ct with
  | CycleType.monthly =>
    let nd := mkJsDate now.year now.month cycleDate
    if dateLe nd now then mkJsDate now.year (now.month + 1) cycleDate else nd
  | CycleType.quarterly =>
    let q := now.month / 3
    let nd := mkJsDate now.year (q * 3) cycleDate
    if dateLe nd now then mkJsDate now.year ((q + 1) * 3) cycleDate else nd
  | CycleType.yearly =>
    let nd := mkJsDate now.year 0 cycleDate
    if dateLe nd now then mkJsDate (now.year + 1) 0 cycleDate else nd

/-- English month name of a zero-based month index, as produced by
`toLocaleDateString("en-US", { month: "long" })`. -/
def monthName (m : Nat) : String :=
  match m with
  | 0 => "January"
  | 1 => "February"
  | 2 => "March"
  | 3 => "April"
  | 4 => "May"
  | 5 => "June"
  | 6 => "July"
  | 7 => "August"
  | 8 => "September"
  | 9 => "October"
  | 10 => "November"
  | _ => "December"

/-- The `formatDate` helper of `cronJobs.js`:
`toLocaleDateString("en-US", { day: "numeric", month: "long", year: "numeric" })`
renders as, e.g., `June 15, 2025`. -/
def formatDate (d : JDate) : String :=
  monthName d.month ++ " " ++ toString d.day ++ ", " ++ toString d.year

/-- The `transactionType` enum of the Transaction schema. -/
inductive TxnKind where
  | income
  | expense
deriving DecidableEq, Repr

/-- A Transaction document (`src/models/Transaction.js`).  `id` stands for the
Mongo `_id`; identities are modelled as naturals drawn from a fresh counter. -/
structure Txn where
  id : Nat
  walletId : Nat
  userId : Nat
  title : String
  description : Option String
  file : Option String
  amount : Rat
  transactionType : TxnKind
  transactionDate : JDate
  isDeleted : Bool
  deletedAt : Option JDate
deriving DecidableEq, Repr

/-- The `softDelete` instance method of the Transaction schema: sets
`isDeleted` and `deletedAt` and saves the document. -/
def Txn.softDelete (t : Txn) (now : JDate) : Txn :=
  { t with isDeleted := true, deletedAt := some now }

/-- The persisted fields of a UserWallet document that this core touches.
The schema declares `currentAmount` (there is no `balance` path). -/
structure WalletDoc where
  currentAmount : Rat
  isDeleted : Bool
deriving DecidableEq, Repr

/-- An Income document.  The Income schema declares `cycleDate` and
`cycleType` as unconditionally required (it has no `isFixedIncome` or
`entryDate` path), so every persisted Income has both. -/
structure IncomeDoc where
  id : Nat
  name : String
  description : Option String
  amount : Rat
  cycleDate : Nat
  cycleType : CycleType
  relaxationDate : Option JDate
  isDeleted : Bool
deriving DecidableEq, Repr

/-- An Expense document.  `cycleDate` and `cycleType` are required only when
`isFixedExpense`, and `entryDate` only when not; absent paths are `none`
(JS `undefined`). -/
structure ExpenseDoc where
  id : Nat
  name : String
  description : Option String
  amount : Rat
  isFixedExpense : Bool
  cycleDate : Option Nat
  cycleType : Option CycleType
  entryDate : Option JDate
  relaxationDate : Option JDate
  isDeleted : Bool
deriving DecidableEq, Repr

/-- The persistent store, restricted to one user and one wallet (every claim
is about a single wallet and the documents referring to it).  `wallet = none`
models a wallet id that does not resolve.  `nextId` is the supply of fresh
document identities. -/
structure St where
  wallet : Option WalletDoc
  txns : List Txn
  incomes : List IncomeDoc
  expenses : List ExpenseDoc
  nextId : Nat
deriving DecidableEq, Repr

/-- The persisted balance of the wallet of the store (0 when the wallet id
does not resolve; used only to phrase balance claims). -/
def walletAmount (st : St) : Rat :=
  match st.wallet with
  | some w => w.currentAmount
  | none => 0

/-- JS truthiness coercion `x || null` applied to an optional string field
(`undefined`, `null` and the empty string are falsy). -/
def orNull (o : Option String) : Option String :=
  match o with
  | none => none
  | some s => if s = "" then none else some s

/-- The `shouldProcessIncome` helper of `cronJobs.js`: due on `today` when the
day of month matches `cycleDate`; quarterly sources additionally require the
month to be January, April, July or October; yearly sources additionally
require `relaxationDate` to be unset or to have passed. -/
def shouldProcessIncome (inc : IncomeDoc) (today : JDate) : Bool :=
  if inc.cycleDate != today.day then false
  else
    match inc.cycleType with
    | CycleType.quarterly =>
      today.month == 0 || today.month == 3 || today.month == 6 || today.month == 9
    | CycleType.yearly =>
      match inc.relaxationDate with
      | none => true
      | some r => dateLe r today
    | CycleType.monthly => true

/-- The `shouldProcessExpense` helper of `cronJobs.js`.  For a spontaneous
expense `cycleDate` is `undefined`, so the first comparison
(`expense.cycleDate !== dayOfMonth`) is true and the source is never due. -/
def shouldProcessExpense (e : ExpenseDoc) (today : JDate) : Bool :=
  match e.cycleDate with
  | none => false
  | some c =>
    if c != today.day then false
    else
      match e.cycleType with
      | some CycleType.quarterly =>
        today.month == 0 || today.month == 3 || today.month == 6 || today.month == 9
      | some CycleType.yearly =>
        match e.relaxationDate with
        | none => true
        | some r => dateLe r today
      | _ => true

/-- Persisted effect of `income.updateRelaxationDate()`: the document with its
`relaxationDate` replaced by the computed next occurrence. -/
def relaxUpdI (now : JDate) (inc : IncomeDoc) : IncomeDoc :=
  { inc with relaxationDate := some (updateRelaxationDate inc.cycleType inc.cycleDate now) }

/-- The `updateRelaxationDate` switch applied to a possibly-absent
`cycleType` (reachable for an Expense: PUT /api/expenses/:id can set
`cycleDate` on a spontaneous expense without setting `cycleType`).  When
`cycleType` is `undefined` no `switch` case matches and `nextDate` keeps its
initial value `new Date(year, month, cycleDate)` of the current month. -/
def updateRelaxationDateOpt (ct : Option CycleType) (cycleDate : Nat) (now : JDate) : JDate :=
  match ct with
  | some c => updateRelaxationDate c cycleDate now
  | none => mkJsDate now.year now.month cycleDate

/-- Persisted effect of `expense.updateRelaxationDate()`.  It is invoked only
on documents that passed the due check, which have `cycleDate` present (the
`getD` default is never reached on those calls); `cycleType` may still be
absent, handled by `updateRelaxationDateOpt`. -/
def relaxUpdE (now : JDate) (e : ExpenseDoc) : ExpenseDoc :=
  let r := updateRelaxationDateOpt e.cycleType (e.cycleDate.getD 1) now
  { e with relaxationDate := some r }

/-- Mongoose `save` of a fetched document: the store entry with the same `_id`
is replaced by the saved document. -/
def saveIncome (nd : IncomeDoc) (l : List IncomeDoc) : List IncomeDoc :=
  l.map (fun x => if x.id == nd.id then nd else x)

/-- Mongoose `save` of a fetched Expense document. -/
def saveExpense (nd : ExpenseDoc) (l : List ExpenseDoc) : List ExpenseDoc :=
  l.map (fun x => if x.id == nd.id then nd else x)

/-- `processIncomeSource` of `cronJobs.js`.  The sources were fetched with
`populate("walletId userId")`; a wallet reference that does not resolve
populates as `null`, so the very first use `income.walletId._id` throws a
TypeError before anything is created — modelled as `none` (the caller's
try/catch turns it into a logged failure).  With a resolving wallet: create
the Transaction, increment the balance with
`$inc: { currentAmount: income.amount }`, advance `relaxationDate`, and
return the created transaction with the new store. -/
def processIncomeSource (now : JDate) (inc : IncomeDoc) (st : St) : Option (Txn × St) :=
  match st.wallet with
  | none => none
  | some w =>
    let t : Txn :=
      { id := st.nextId
        walletId := 0
        userId := 0
        title := "Added Income for " ++ inc.name ++ " on " ++ formatDate now
        description := orNull inc.description
        file := none
        amount := inc.amount
        transactionType := TxnKind.income
        transactionDate := now
        isDeleted := false
        deletedAt := none }
    some (t,
      { st with
        txns := st.txns ++ [t]
        nextId := st.nextId + 1
        wallet := some { w with currentAmount := w.currentAmount + inc.amount }
        incomes := saveIncome (relaxUpdI now inc) st.incomes })

/-- `processExpenseSource` of `cronJobs.js`.  As for incomes, a non-resolving
wallet reference already throws at `expense.walletId._id` before `findById`
runs — modelled as `none` (caught and logged by the caller); consequently the
`if (!wallet) return null` guard after `findById` is unreachable in this
model, since a reference that populated non-null also resolves for `findById`
(wallets are only ever soft-deleted, and `findById` does not filter on
`isDeleted`).  With a resolving wallet: return `some null` when
`currentAmount < amount` (insufficient balance, no mutation); otherwise
create the Transaction, decrement the balance and advance `relaxationDate`. -/
def processExpenseSource (now : JDate) (e : ExpenseDoc) (st : St) : Option (Option Txn × St) :=
  match st.wallet with
  | none => none
  | some w =>
    if w.currentAmount < e.amount then some (none, st)
    else
      let t : Txn :=
        { id := st.nextId
          walletId := 0
          userId := 0
          title := "Added Expense for " ++ e.name ++ " on " ++ formatDate now
          description := orNull e.description
          file := none
          amount := e.amount
          transactionType := TxnKind.expense
          transactionDate := now
          isDeleted := false
          deletedAt := none }
      some (some t,
        { st with
          txns := st.txns ++ [t]
          nextId := st.nextId + 1
          wallet := some { w with currentAmount := w.currentAmount - e.amount }
          expenses := saveExpense (relaxUpdE now e) st.expenses })

/-- Per-source outcome of one income batch iteration, as logged and counted by
`checkIncomeSources` (`failed` is the caught-and-logged branch). -/
inductive IOutcome where
  | processed
  | skipped
  | failed
deriving DecidableEq, Repr

/-- Per-source outcome of one expense batch iteration, as logged and counted
by `checkExpenseSources`. -/
inductive EOutcome where
  | processed
  | insufficient
  | skipped
  | failed
deriving DecidableEq, Repr

/-- The try-block of one `checkIncomeSources` iteration: due check, then
`processIncomeSource`; a throw (non-resolving wallet) is caught by the
enclosing catch and logged, leaving the store unchanged, counted neither
processed nor skipped. -/
def incomeStep (now : JDate) (inc : IncomeDoc) (st : St) : IOutcome × St :=
  if shouldProcessIncome inc now then
    match processIncomeSource now inc st with
    | some p => (IOutcome.processed, p.2)
    | none => (IOutcome.failed, st)
  else (IOutcome.skipped, st)

/-- The try-block of one `checkExpenseSources` iteration: a truthy result of
`processExpenseSource` counts as processed, a `null` result as insufficient
funds, and a caught throw as a logged failure with the store unchanged. -/
def expenseStep (now : JDate) (e : ExpenseDoc) (st : St) : EOutcome × St :=
  if shouldProcessExpense e now then
    match processExpenseSource now e st with
    | some p => ((if p.1.isSome then EOutcome.processed else EOutcome.insufficient), p.2)
    | none => (EOutcome.failed, st)
  else (EOutcome.skipped, st)

/-- Fault tag for the try/catch inside the batch loops: pairing a source with
`some f` means an unexpected error is thrown while processing that source,
after the partial state effect `f`; the loop catches it, logs, and continues.
Pairing with `none` is normal processing.  `tagNormal` tags a whole snapshot
as fault-free. -/
def tagNormal {a : Type} (l : List a) : List (a × Option (St → St)) :=
  l.map (fun x => (x, none))

/-- The `for` loop of `checkIncomeSources`: walk the fetched snapshot of
active income sources in order, one `incomeStep` per source, never aborting
on a per-source failure. -/
def runIncomeDocs (now : JDate) :
    List (IncomeDoc × Option (St → St)) → St → St × List IOutcome
  | [], st => (st, [])
  | (inc, fault) :: rest, st =>
    match fault with
    | some f =>
      let r := runIncomeDocs now rest (f st)
      (r.1, IOutcome.failed :: r.2)
    | none =>
      let s := incomeStep now inc st
      let r := runIncomeDocs now rest s.2
      (r.1, s.1 :: r.2)

/-- The `for` loop of `checkExpenseSources`: one `expenseStep` per snapshot
source, never aborting on a per-source failure. -/
def runExpenseDocs (now : JDate) :
    List (ExpenseDoc × Option (St → St)) → St → St × List EOutcome
  | [], st => (st, [])
  | (e, fault) :: rest, st =>
    match fault with
    | some f =>
      let r := runExpenseDocs now rest (f st)
      (r.1, EOutcome.failed :: r.2)
    | none =>
      let s := expenseStep now e st
      let r := runExpenseDocs now rest s.2
      (r.1, s.1 :: r.2)

/-- The snapshot `Income.find({ isDeleted: false })` fetched by the income
cron callback. -/
def activeIncomes (st : St) : List IncomeDoc :=
  st.incomes.filter (fun i => !i.isDeleted)

/-- One fault-free invocation of the income cron callback with reference date
`d` (the callback zeroes the time of day of `now` to obtain `today`; at day
granularity the two coincide, so a single date drives both the due check and
the relaxation computation). -/
def incomeRun (d : JDate) (st : St) : St × List IOutcome :=
  runIncomeDocs d (tagNormal (activeIncomes st)) st

/-- Request body of POST /api/transactions after validation (`amount` passed
`isFloat({ min: 0 })`, `transactionType` is one of the two enum values). -/
structure TxnReq where
  title : String
  description : Option String
  amount : Rat
  transactionType : TxnKind
  transactionDate : Option JDate
  file : Option String
deriving DecidableEq, Repr

/-- The POST /api/transactions handler: resolve the wallet with
`findOne({ _id, userId, isDeleted: false })` (404 when absent), create the
Transaction, then mutate the balance: `$inc` for income; for expense, first
compare the snapshot balance with the amount and on insufficiency delete the
just-created Transaction again (compensating rollback) and answer 400.
Returns the HTTP status and the new store. -/
def createTransactionHandler (now : JDate) (req : TxnReq) (st : St) : Nat × St :=
  match st.wallet with
  | none => (404, st)
  | some w =>
    if w.isDeleted then (404, st)
    else
      let t : Txn :=
        { id := st.nextId
          walletId := 0
          userId := 0
          title := req.title
          description := orNull req.description
          file := req.file
          amount := req.amount
          transactionType := req.transactionType
          transactionDate := req.transactionDate.getD now
          isDeleted := false
          deletedAt := none }
      let st1 : St := { st with txns := st.txns ++ [t], nextId := st.nextId + 1 }
      match req.transactionType with
      | TxnKind.income =>
        (201, { st1 with wallet := some { w with currentAmount := w.currentAmount + req.amount } })
      | TxnKind.expense =>
        if w.currentAmount < req.amount then
          (400, { st1 with txns := st1.txns.filter (fun x => x.id != t.id) })
        else
          (201, { st1 with wallet := some { w with currentAmount := w.currentAmount - req.amount } })

/-- Request body of POST /api/expenses after validation. -/
structure ExpenseReq where
  name : String
  description : Option String
  amount : Rat
  isFixedExpense : Option Bool
  cycleDate : Option Nat
  cycleType : Option CycleType
  entryDate : Option JDate
deriving DecidableEq, Repr

/-- The insufficiency test of the spontaneous branch of POST /api/expenses.
The handler writes `wallet.balance`, but `balance` is not a path of the
UserWallet schema (the persisted field is `currentAmount`), so the read yields
JS `undefined` and `undefined < amount` evaluates to `false` for every
amount (NaN comparison).  The rollback branch it guards is therefore dead. -/
def undefinedLtNum (_amount : Rat) : Bool := false

/-- The POST /api/expenses handler.  Fixed sources are persisted and answered
201 with no ledger effect.  For a spontaneous source the code then checks
`wallet.balance < amount` (dead, see `undefinedLtNum`), creates the
Transaction, and runs `wallet.balance -= amount; wallet.save()` — an
assignment to a non-schema path, dropped on save under strict mode, so the
persisted `currentAmount` is unchanged. -/
def createExpenseHandler (now : JDate) (req : ExpenseReq) (st : St) : Nat × St :=
  match st.wallet with
  | none => (404, st)
  | some w =>
    if w.isDeleted then (404, st)
    else
      let isFixed := req.isFixedExpense.getD true
      let e : ExpenseDoc :=
        { id := st.nextId
          name := req.name
          description := req.description
          amount := req.amount
          isFixedExpense := isFixed
          cycleDate := if isFixed then req.cycleDate else none
          cycleType := if isFixed then req.cycleType else none
          entryDate := if isFixed then none else some (req.entryDate.getD now)
          relaxationDate := none
          isDeleted := false }
      let st1 : St := { st with expenses := st.expenses ++ [e], nextId := st.nextId + 1 }
      if isFixed then (201, st1)
      else
        if undefinedLtNum req.amount then
          (400, { st1 with expenses := st1.expenses.filter (fun x => x.id != e.id) })
        else
          let t : Txn :=
            { id := st1.nextId
              walletId := 0
              userId := 0
              title := "Expense: " ++ req.name
              description := some ((orNull req.description).getD ("Spontaneous expense for " ++ req.name))
              file := none
              amount := req.amount
              transactionType := TxnKind.expense
              transactionDate := req.entryDate.getD now
              isDeleted := false
              deletedAt := none }
          (201, { st1 with txns := st1.txns ++ [t], nextId := st1.nextId + 1 })

/-- Request body of POST /api/incomes after validation (the validator requires
`cycleDate`/`cycleType` unless `isFixedIncome` is literally `false`). -/
structure IncomeReq where
  name : String
  description : Option String
  amount : Rat
  isFixedIncome : Option Bool
  cycleDate : Option Nat
  cycleType : Option CycleType
  entryDate : Option JDate
deriving DecidableEq, Repr

/-- The POST /api/incomes handler.  For a fixed income the document is
persisted and answered 201 (no ledger effect).  For a spontaneous income the
route omits `cycleDate`/`cycleType` from the data passed to `Income.create`,
but the Income schema declares both as unconditionally required with no
default, so `create` throws a validation error that the catch block turns
into a 500 with no persisted document — the transaction-creation block below
that call is unreachable.  A fixed request whose cycle fields were somehow
absent would be rejected the same way. -/
def createIncomeHandler (req : IncomeReq) (st : St) : Nat × St :=
  match st.wallet with
  | none => (404, st)
  | some w =>
    if w.isDeleted then (404, st)
    else
      let isFixed := req.isFixedIncome.getD true
      if isFixed then
        match req.cycleDate, req.cycleType with
        | some c, some ct =>
          let inc : IncomeDoc :=
            { id := st.nextId
              name := req.name
              description := req.description
              amount := req.amount
              cycleDate := c
              cycleType := ct
              relaxationDate := none
              isDeleted := false }
          (201, { st with incomes := st.incomes ++ [inc], nextId := st.nextId + 1 })
        | _, _ => (500, st)
      else (500, st)

/-- The DELETE /api/transactions/:id handler: `findOne` the non-deleted
transaction with the given id (404 when absent), then `softDelete` it (the
save replaces the store entry with that id).  The wallet is never touched. -/
def deleteTransactionHandler (now : JDate) (tid : Nat) (st : St) : Nat × St :=
  match st.txns.find? (fun x => x.id == tid && !x.isDeleted) with
  | none => (404, st)
  | some t =>
    (200, { st with txns := st.txns.map (fun x => if x.id == t.id then Txn.softDelete t now else x) })

/-- The selection predicate of the transaction listing/summary queries
(GET /api/transactions and the per-type listings): only documents with
`isDeleted: false` are returned; sorting and the 100-row cap affect order and
pagination only. -/
def listTransactions (st : St) : List Txn :=
  st.txns.filter (fun t => !t.isDeleted)

/-- Net per-document effect of one fault-free income batch run on the income
collection: a document is replaced by its relaxation-advanced version exactly
when it belongs to the processed snapshot `l` and is due (used to state the
run characterization lemma below). -/
def dueUpd (now : JDate) (l : List IncomeDoc) (x : IncomeDoc) : IncomeDoc :=
  if l.any (fun j => j.id == x.id) && shouldProcessIncome x now then relaxUpdI now x else x

/-- The pending snapshot `l` is id-consistent with the collection `db`:
snapshot ids are distinct (Mongo `_id` uniqueness) and every collection entry
sharing an id with a snapshot document is that document (the snapshot was
fetched from the collection). -/
def PendingI (l db : List IncomeDoc) : Prop :=
  (l.map IncomeDoc.id).Nodup ∧ ∀ i ∈ l, ∀ x ∈ db, x.id = i.id → x = i

lemma monthLen_ge (y m : Nat) : 28 ≤ monthLen y m := by
  rcases m with _ | _ | _ | _ | _ | _ | _ | _ | _ | _ | _ | m <;>
    simp only [monthLen] <;> (try split) <;> omega

lemma monthLen_le (y m : Nat) : monthLen y m ≤ 31 := by
  rcases m with _ | _ | _ | _ | _ | _ | _ | _ | _ | _ | _ | m <;>
    simp only [monthLen] <;> (try split) <;> omega

lemma monthLen_jan (y : Nat) : monthLen y 0 = 31 := rfl

lemma dateLe_iff (a b : JDate) :
    dateLe a b = true ↔
      (a.year < b.year ∨
        (a.year = b.year ∧
          (a.month < b.month ∨ (a.month = b.month ∧ a.day ≤ b.day)))) := by
  simp [dateLe, Nat.blt, Nat.ble_eq, Nat.succ_le_iff]

lemma dateLt_iff (a b : JDate) :
    dateLt a b = true ↔
      (a.year < b.year ∨
        (a.year = b.year ∧
          (a.month < b.month ∨ (a.month = b.month ∧ a.day < b.day)))) := by
  simp [dateLt, Nat.blt, Nat.succ_le_iff]

lemma dateLt_of_not_dateLe {a b : JDate} (h : dateLe a b = false) :
    dateLt b a = true := by
  have h1 : ¬ dateLe a b = true := by simp [h]
  rw [dateLe_iff] at h1
  rw [dateLt_iff]
  omega

lemma dateLe_false_of_dateLt {a b : JDate} (h : dateLt a b = true) :
    dateLe b a = false := by
  rw [dateLt_iff] at h
  cases hle : dateLe b a with
  | false => rfl
  | true => rw [dateLe_iff] at hle; omega

/-- Characterization of day-overflow normalization for the day range 1..31:
at most one roll into the following month happens (every month has at least
28 days). -/
lemma normDay_char (y m d : Nat) (hd1 : 1 ≤ d) (hd31 : d ≤ 31) :
    normDay d y m d =
      if d ≤ monthLen y m then (⟨y, m, d⟩ : JDate)
      else if m == 11 then ⟨y + 1, 0, d - monthLen y m⟩
      else ⟨y, m + 1, d - monthLen y m⟩ := by
  obtain ⟨k, rfl⟩ : ∃ k, d = k + 1 := ⟨d - 1, by omega⟩
  rw [normDay]
  split
  · rfl
  · rename_i hgt
    have hge : 28 ≤ monthLen y m := monthLen_ge y m
    have hk : ∃ k2, k = k2 + 1 := ⟨k - 1, by omega⟩
    obtain ⟨k2, rfl⟩ := hk
    split
    · rw [normDay]
      have : k2 + 1 + 1 - monthLen y m ≤ monthLen (y + 1) 0 := by
        have := monthLen_ge (y + 1) 0
        omega
      simp [this]
    · rw [normDay]
      have : k2 + 1 + 1 - monthLen y m ≤ monthLen y (m + 1) := by
        have := monthLen_ge y (m + 1)
        omega
      simp [this]

/-- `new Date(y, 0, c)` for a day 1..31 is the plain January date (January has
31 days, so no overflow). -/
lemma mkJsDate_jan (y c : Nat) (hc1 : 1 ≤ c) (hc31 : c ≤ 31) :
    mkJsDate y 0 c = ⟨y, 0, c⟩ := by
  have h0 : mkJsDate y 0 c = normDay c y 0 c := by
    unfold mkJsDate; norm_num
  rw [h0, normDay_char y 0 c hc1 hc31]
  rw [if_pos (by rw [monthLen_jan]; omega)]

/-- Any normalized `new Date(y, mm, c)` with target month index `mm` strictly
beyond the current month `m` (and at most 12) lies strictly after every valid
day of month `m` of year `y`. -/
lemma mkJsDate_gt_of_month_lt (y m d mm c : Nat) (hlt : m < mm)
    (hmm : mm ≤ 12) (hc1 : 1 ≤ c) (hc31 : c ≤ 31) :
    dateLt ⟨y, m, d⟩ (mkJsDate y mm c) = true := by
  by_cases h12 : mm = 12
  · subst h12
    have h0 : mkJsDate y 12 c = normDay c (y + 1) 0 c := by
      unfold mkJsDate; norm_num
    rw [h0, normDay_char (y + 1) 0 c hc1 hc31]
    rw [if_pos (by rw [monthLen_jan]; omega)]
    rw [dateLt_iff]
    dsimp only
    omega
  · have hmm11 : mm ≤ 11 := by omega
    have h0 : mkJsDate y mm c = normDay c y mm c := by
      unfold mkJsDate
      have h1 : mm / 12 = 0 := Nat.div_eq_of_lt (by omega)
      have h2 : mm % 12 = mm := Nat.mod_eq_of_lt (by omega)
      rw [h1, h2, Nat.add_zero]
    rw [h0, normDay_char y mm c hc1 hc31]
    split
    · rw [dateLt_iff]; dsimp only; omega
    · split
      · rw [dateLt_iff]; dsimp only; omega
      · rw [dateLt_iff]; dsimp only; omega

/-- Central strict-future property of `updateRelaxationDate`: for every cycle
type, every cycle day 1..31 and every valid current date, the computed next
occurrence is strictly later than the current date. -/
lemma relax_future (ct : CycleType) (c : Nat) (now : JDate) (hv : now.Valid)
    (hc1 : 1 ≤ c) (hc31 : c ≤ 31) :
    dateLt now (updateRelaxationDate ct c now) = true := by
  obtain ⟨hm, hd1, hd2⟩ := hv
  cases ct with
  | monthly =>
    simp only [updateRelaxationDate]
    split
    · exact mkJsDate_gt_of_month_lt now.year now.month now.day (now.month + 1) c
        (by omega) (by omega) hc1 hc31
    · rename_i hle
      exact dateLt_of_not_dateLe (Bool.eq_false_iff.mpr hle)
  | quarterly =>
    simp only [updateRelaxationDate]
    split
    · exact mkJsDate_gt_of_month_lt now.year now.month now.day ((now.month / 3 + 1) * 3) c
        (by omega) (by omega) hc1 hc31
    · rename_i hle
      exact dateLt_of_not_dateLe (Bool.eq_false_iff.mpr hle)
  | yearly =>
    simp only [updateRelaxationDate]
    split
    · rw [mkJsDate_jan (now.year + 1) c hc1 hc31, dateLt_iff]
      dsimp only
      omega
    · rename_i hle
      exact dateLt_of_not_dateLe (Bool.eq_false_iff.mpr hle)

lemma runIncomeDocs_length (now : JDate) :
    ∀ (l : List (IncomeDoc × Option (St → St))) (st : St),
      (runIncomeDocs now l st).2.length = l.length := by
  intro l
  induction l with
  | nil => intro st; simp [runIncomeDocs]
  | cons p rest ih =>
    intro st
    obtain ⟨i, fault⟩ := p
    simp only [runIncomeDocs]
    cases fault with
    | some f => simp [ih]
    | none => simp [ih]

lemma runExpenseDocs_length (now : JDate) :
    ∀ (l : List (ExpenseDoc × Option (St → St))) (st : St),
      (runExpenseDocs now l st).2.length = l.length := by
  intro l
  induction l with
  | nil => intro st; simp [runExpenseDocs]
  | cons p rest ih =>
    intro st
    obtain ⟨e, fault⟩ := p
    simp only [runExpenseDocs]
    cases fault with
    | some f => simp [ih]
    | none => simp [ih]

lemma runIncomeDocs_append (now : JDate) :
    ∀ (xs ys : List (IncomeDoc × Option (St → St))) (st : St),
      runIncomeDocs now (xs ++ ys) st =
        ((runIncomeDocs now ys (runIncomeDocs now xs st).1).1,
          (runIncomeDocs now xs st).2 ++
            (runIncomeDocs now ys (runIncomeDocs now xs st).1).2) := by
  intro xs
  induction xs with
  | nil => intro ys st; simp [runIncomeDocs]
  | cons p rest ih =>
    intro ys st
    obtain ⟨i, fault⟩ := p
    rw [List.cons_append]
    simp only [runIncomeDocs]
    cases fault with
    | some f => simp [ih]
    | none => simp [ih]

lemma runExpenseDocs_append (now : JDate) :
    ∀ (xs ys : List (ExpenseDoc × Option (St → St))) (st : St),
      runExpenseDocs now (xs ++ ys) st =
        ((runExpenseDocs now ys (runExpenseDocs now xs st).1).1,
          (runExpenseDocs now xs st).2 ++
            (runExpenseDocs now ys (runExpenseDocs now xs st).1).2) := by
  intro xs
  induction xs with
  | nil => intro ys st; simp [runExpenseDocs]
  | cons p rest ih =>
    intro ys st
    obtain ⟨e, fault⟩ := p
    rw [List.cons_append]
    simp only [runExpenseDocs]
    cases fault with
    | some f => simp [ih]
    | none => simp [ih]

lemma eoutcome_count_partition (os : List EOutcome) :
    os.count EOutcome.processed + os.count EOutcome.insufficient +
      os.count EOutcome.skipped + os.count EOutcome.failed = os.length := by
  induction os with
  | nil => simp
  | cons o rest ih =>
    cases o <;> simp [List.count_cons, ih] <;> omega

lemma ioutcome_count_partition (os : List IOutcome) :
    os.count IOutcome.processed + os.count IOutcome.skipped +
      os.count IOutcome.failed = os.length := by
  induction os with
  | nil => simp
  | cons o rest ih =>
    cases o <;> simp [List.count_cons, ih] <;> omega

lemma walletAmount_eq (st : St) (w : WalletDoc) (hw : st.wallet = some w) :
    walletAmount st = w.currentAmount := by
  unfold walletAmount
  rw [hw]

/-- Shape of a successful `processIncomeSource` call on a store whose wallet
reference resolves. -/
lemma processIncomeSource_spec (now : JDate) (inc : IncomeDoc) (st : St) (w : WalletDoc)
    (hw : st.wallet = some w) :
    ∃ t st2, processIncomeSource now inc st = some (t, st2) ∧
      st2.incomes = saveIncome (relaxUpdI now inc) st.incomes ∧
      st2.wallet = some { w with currentAmount := w.currentAmount + inc.amount } ∧
      st2.txns = st.txns ++ [t] ∧
      st2.expenses = st.expenses ∧
      t.amount = inc.amount ∧
      t.transactionType = TxnKind.income ∧
      t.title = "Added Income for " ++ inc.name ++ " on " ++ formatDate now := by
  obtain ⟨wal, txns, incs, exps, nid⟩ := st
  simp only at hw
  subst hw
  exact ⟨_, _, rfl, rfl, rfl, rfl, rfl, rfl, rfl, rfl⟩

/-- Insufficient-balance shape of `processExpenseSource`: `some null` with the
store untouched. -/
lemma processExpenseSource_insufficient (now : JDate) (e : ExpenseDoc) (st : St)
    (w : WalletDoc) (hw : st.wallet = some w) (hlt : w.currentAmount < e.amount) :
    processExpenseSource now e st = some (none, st) := by
  obtain ⟨wal, txns, incs, exps, nid⟩ := st
  simp only at hw
  subst hw
  simp [processExpenseSource, hlt]

/-- Shape of a sufficient-balance `processExpenseSource` call. -/
lemma processExpenseSource_spec (now : JDate) (e : ExpenseDoc) (st : St) (w : WalletDoc)
    (hw : st.wallet = some w) (hge : ¬ w.currentAmount < e.amount) :
    ∃ t st2, processExpenseSource now e st = some (some t, st2) ∧
      st2.wallet = some { w with currentAmount := w.currentAmount - e.amount } ∧
      st2.txns = st.txns ++ [t] ∧
      st2.incomes = st.incomes ∧
      st2.expenses = saveExpense (relaxUpdE now e) st.expenses ∧
      t.amount = e.amount ∧
      t.transactionType = TxnKind.expense ∧
      t.title = "Added Expense for " ++ e.name ++ " on " ++ formatDate now := by
  obtain ⟨wal, txns, incs, exps, nid⟩ := st
  simp only at hw
  subst hw
  unfold processExpenseSource
  dsimp only
  rw [if_neg hge]
  exact ⟨_, _, rfl, rfl, rfl, rfl, rfl, rfl, rfl, rfl⟩

lemma runIncomeDocs_normal_outcomes (now : JDate) :
    ∀ (l : List IncomeDoc) (st : St), st.wallet.isSome = true →
      (runIncomeDocs now (tagNormal l) st).2 =
        l.map (fun i => if shouldProcessIncome i now then IOutcome.processed
          else IOutcome.skipped) := by
  intro l
  induction l with
  | nil => intro st _; simp [tagNormal, runIncomeDocs]
  | cons i rest ih =>
    intro st hws
    obtain ⟨w, hw⟩ := Option.isSome_iff_exists.mp hws
    obtain ⟨t, st2, hps, _, hwal2, _, _, _, _, _⟩ :=
      processIncomeSource_spec now i st w hw
    simp only [tagNormal, List.map_cons, runIncomeDocs]
    simp only [tagNormal] at ih
    by_cases hdue : shouldProcessIncome i now
    · have hstep : incomeStep now i st = (IOutcome.processed, st2) := by
        simp [incomeStep, hdue, hps]
      rw [hstep]
      simp [ih st2 (by simp [hwal2]), hdue]
    · have hstep : incomeStep now i st = (IOutcome.skipped, st) := by
        simp [incomeStep, hdue]
      rw [hstep]
      simp [ih st hws, hdue]

lemma runIncomeDocs_normal_wallet (now : JDate) :
    ∀ (l : List IncomeDoc) (st : St), st.wallet.isSome = true →
      (runIncomeDocs now (tagNormal l) st).1.wallet.isSome = true := by
  intro l
  induction l with
  | nil => intro st hws; simpa [tagNormal, runIncomeDocs] using hws
  | cons i rest ih =>
    intro st hws
    obtain ⟨w, hw⟩ := Option.isSome_iff_exists.mp hws
    obtain ⟨t, st2, hps, _, hwal2, _, _, _, _, _⟩ :=
      processIncomeSource_spec now i st w hw
    simp only [tagNormal, List.map_cons, runIncomeDocs]
    simp only [tagNormal] at ih
    by_cases hdue : shouldProcessIncome i now
    · have hstep : incomeStep now i st = (IOutcome.processed, st2) := by
        simp [incomeStep, hdue, hps]
      rw [hstep]
      exact ih st2 (by simp [hwal2])
    · have hstep : incomeStep now i st = (IOutcome.skipped, st) := by
        simp [incomeStep, hdue]
      rw [hstep]
      exact ih st hws

lemma relaxUpdI_id (now : JDate) (i : IncomeDoc) : (relaxUpdI now i).id = i.id := rfl

lemma relaxUpdI_isDeleted (now : JDate) (i : IncomeDoc) :
    (relaxUpdI now i).isDeleted = i.isDeleted := rfl

lemma dueUpd_isDeleted (now : JDate) (l : List IncomeDoc) (x : IncomeDoc) :
    (dueUpd now l x).isDeleted = x.isDeleted := by
  unfold dueUpd
  split
  · exact relaxUpdI_isDeleted now x
  · rfl

lemma any_id_eq_false {rest : List IncomeDoc} {v : Nat}
    (h : v ∉ rest.map IncomeDoc.id) :
    rest.any (fun j => j.id == v) = false := by
  rw [List.any_eq_false]
  intro j hj
  simp only [beq_iff_eq]
  intro hcon
  exact h (List.mem_map.mpr ⟨j, hj, hcon⟩)

lemma pending_tail {i : IncomeDoc} {rest db : List IncomeDoc}
    (hp : PendingI (i :: rest) db) : PendingI rest db := by
  obtain ⟨hnd, hm⟩ := hp
  exact ⟨(List.nodup_cons.mp hnd).2, fun j hj x hx hxj => hm j (List.mem_cons_of_mem i hj) x hx hxj⟩

lemma pending_after_save (now : JDate) {i : IncomeDoc} {rest db : List IncomeDoc}
    (hp : PendingI (i :: rest) db) :
    PendingI rest (saveIncome (relaxUpdI now i) db) := by
  obtain ⟨hnd, hm⟩ := hp
  have hid_not : i.id ∉ rest.map IncomeDoc.id := (List.nodup_cons.mp hnd).1
  refine ⟨(List.nodup_cons.mp hnd).2, ?_⟩
  intro j hj x hx hxj
  obtain ⟨x0, hx0, hfx⟩ := List.mem_map.mp hx
  by_cases h0 : x0.id = (relaxUpdI now i).id
  · rw [if_pos (beq_iff_eq.mpr h0)] at hfx
    subst hfx
    rw [relaxUpdI_id] at hxj
    exact absurd (List.mem_map.mpr ⟨j, hj, hxj.symm⟩) hid_not
  · rw [if_neg (by simpa using h0)] at hfx
    subst hfx
    exact hm j (List.mem_cons_of_mem i hj) x0 hx0 hxj

lemma map_dueUpd_cons_processed (now : JDate) (i : IncomeDoc) (rest db : List IncomeDoc)
    (hid_not : i.id ∉ rest.map IncomeDoc.id)
    (hmatch : ∀ x ∈ db, x.id = i.id → x = i)
    (hdue : shouldProcessIncome i now = true) :
    (saveIncome (relaxUpdI now i) db).map (dueUpd now rest) =
      db.map (dueUpd now (i :: rest)) := by
  unfold saveIncome
  rw [List.map_map]
  apply List.map_congr_left
  intro x hx
  simp only [Function.comp]
  by_cases hxid : x.id = i.id
  · have hx_eq : x = i := hmatch x hx hxid
    rw [if_pos (by rw [relaxUpdI_id]; exact beq_iff_eq.mpr hxid)]
    have hany : rest.any (fun j => j.id == (relaxUpdI now i).id) = false := by
      rw [relaxUpdI_id]; exact any_id_eq_false hid_not
    unfold dueUpd
    rw [hany]
    simp only [Bool.false_and, if_neg Bool.false_ne_true]
    have hanyc : (i :: rest).any (fun j => j.id == x.id) = true := by
      simp [List.any_cons, hxid]
    rw [hanyc]
    rw [hx_eq, hdue]
    simp
  · rw [if_neg (by simpa using hxid)]
    unfold dueUpd
    have hstep : (i :: rest).any (fun j => j.id == x.id) = rest.any (fun j => j.id == x.id) := by
      simp only [List.any_cons, Bool.or_eq_true, beq_iff_eq]
      rcases hany : rest.any (fun j => j.id == x.id) with _ | _
      · simp only [Bool.or_false]
        exact beq_eq_false_iff_ne.mpr (fun hcon => hxid hcon.symm)
      · simp
    rw [hstep]

lemma map_dueUpd_cons_skipped (now : JDate) (i : IncomeDoc) (rest db : List IncomeDoc)
    (hmatch : ∀ x ∈ db, x.id = i.id → x = i)
    (hdue : shouldProcessIncome i now = false) :
    db.map (dueUpd now rest) = db.map (dueUpd now (i :: rest)) := by
  apply List.map_congr_left
  intro x hx
  by_cases hxid : x.id = i.id
  · have hx_eq : x = i := hmatch x hx hxid
    unfold dueUpd
    rw [hx_eq, hdue]
    simp
  · unfold dueUpd
    have hstep : (i :: rest).any (fun j => j.id == x.id) = rest.any (fun j => j.id == x.id) := by
      simp only [List.any_cons, Bool.or_eq_true, beq_iff_eq]
      rcases hany : rest.any (fun j => j.id == x.id) with _ | _
      · simp only [Bool.or_false]
        exact beq_eq_false_iff_ne.mpr (fun hcon => hxid hcon.symm)
      · simp
    rw [hstep]

lemma runIncomeDocs_normal_incomes (now : JDate) :
    ∀ (l : List IncomeDoc) (st : St), st.wallet.isSome = true → PendingI l st.incomes →
      (runIncomeDocs now (tagNormal l) st).1.incomes = st.incomes.map (dueUpd now l) := by
  intro l
  induction l with
  | nil =>
    intro st _ _
    have hfun : dueUpd now [] = id := by
      funext x; simp [dueUpd]
    rw [hfun, List.map_id]
    simp [tagNormal, runIncomeDocs]
  | cons i rest ih =>
    intro st hws hp
    obtain ⟨w, hw⟩ := Option.isSome_iff_exists.mp hws
    obtain ⟨t, st2, hps, hinc2, hwal2, _, _, _, _, _⟩ :=
      processIncomeSource_spec now i st w hw
    have hnd := hp.1
    have hid_not : i.id ∉ rest.map IncomeDoc.id := (List.nodup_cons.mp hnd).1
    have hmatch : ∀ x ∈ st.incomes, x.id = i.id → x = i :=
      fun x hx hxi => hp.2 i (List.mem_cons_self i rest) x hx hxi
    simp only [tagNormal, List.map_cons, runIncomeDocs]
    simp only [tagNormal] at ih
    by_cases hdue : shouldProcessIncome i now
    · have hstep : incomeStep now i st = (IOutcome.processed, st2) := by
        simp [incomeStep, hdue, hps]
      rw [hstep]
      have hih := ih st2 (by simp [hwal2])
        (by rw [hinc2]; exact pending_after_save now hp)
      rw [hih, hinc2]
      exact map_dueUpd_cons_processed now i rest st.incomes hid_not hmatch hdue
    · have hstep : incomeStep now i st = (IOutcome.skipped, st) := by
        simp [incomeStep, hdue]
      rw [hstep]
      have hih := ih st hws (pending_tail hp)
      rw [hih]
      exact map_dueUpd_cons_skipped now i rest st.incomes hmatch
        (Bool.eq_false_iff.mpr hdue)

lemma filter_map_comm {α : Type} (f : α → α) (p : α → Bool) (h : ∀ x, p (f x) = p x) :
    ∀ l : List α, (l.map f).filter p = (l.filter p).map f := by
  intro l
  induction l with
  | nil => simp
  | cons a rest ih =>
    simp only [List.map_cons, List.filter_cons, h a]
    by_cases hp : p a
    · simp [hp, ih]
    · simp [hp, ih]

lemma pending_active (st : St) (hnd : (st.incomes.map IncomeDoc.id).Nodup) :
    PendingI (activeIncomes st) st.incomes := by
  constructor
  · have hsub : List.Sublist ((activeIncomes st).map IncomeDoc.id)
        (st.incomes.map IncomeDoc.id) :=
      (List.filter_sublist st.incomes).map IncomeDoc.id
    exact hnd.sublist hsub
  · intro i hi x hx hxi
    exact List.inj_on_of_nodup_map hnd hx (List.mem_of_mem_filter hi) hxi

lemma cycleDate_eq_of_due (i : IncomeDoc) (today : JDate)
    (h : shouldProcessIncome i today = true) : i.cycleDate = today.day := by
  by_contra hne
  unfold shouldProcessIncome at h
  rw [if_pos (bne_iff_ne.mpr hne)] at h
  exact Bool.false_ne_true h

/-- A yearly income source that was due and processed on day `d` is no longer
due on `d`: its new `relaxationDate` is strictly in the future, so the yearly
arm of the due check rejects it. -/
lemma relax_not_due_yearly (d : JDate) (i : IncomeDoc) (hv : d.Valid)
    (hy : i.cycleType = CycleType.yearly) (hdue : shouldProcessIncome i d = true) :
    shouldProcessIncome (relaxUpdI d i) d = false := by
  have hcd : i.cycleDate = d.day := cycleDate_eq_of_due i d hdue
  obtain ⟨hm, hd1, hd2⟩ := hv
  have hc31 : d.day ≤ 31 := le_trans hd2 (monthLen_le d.year d.month)
  have hfut : dateLt d (updateRelaxationDate i.cycleType i.cycleDate d) = true := by
    rw [hcd]
    exact relax_future i.cycleType d.day d ⟨hm, hd1, hd2⟩ hd1 hc31
  have hle : dateLe (updateRelaxationDate i.cycleType i.cycleDate d) d = false :=
    dateLe_false_of_dateLt hfut
  rw [hcd, hy] at hle
  simp [shouldProcessIncome, relaxUpdI, hcd, hy, hle]

lemma incomeRun_outcomes (d : JDate) (st : St) (hws : st.wallet.isSome = true) :
    (incomeRun d st).2 = (activeIncomes st).map
      (fun i => if shouldProcessIncome i d then IOutcome.processed else IOutcome.skipped) :=
  runIncomeDocs_normal_outcomes d (activeIncomes st) st hws

lemma incomeRun_incomes (d : JDate) (st : St) (hws : st.wallet.isSome = true)
    (hnd : (st.incomes.map IncomeDoc.id).Nodup) :
    (incomeRun d st).1.incomes = st.incomes.map (dueUpd d (activeIncomes st)) :=
  runIncomeDocs_normal_incomes d (activeIncomes st) st hws (pending_active st hnd)

lemma incomeRun_wallet (d : JDate) (st : St) (hws : st.wallet.isSome = true) :
    (incomeRun d st).1.wallet.isSome = true :=
  runIncomeDocs_normal_wallet d (activeIncomes st) st hws

/-- C7: For every structurally valid fixed source (cycle day between 1 and
31, any of the three cycle types) and every valid reference date, the
next-occurrence computation `updateRelaxationDate` returns a date strictly
greater than the reference date: never the reference date itself and never a
past date. -/
theorem claim7_next_occurrence_strictly_future (ct : CycleType) (c : Nat) (now : JDate)
    (hv : now.Valid) (hc1 : 1 ≤ c) (hc31 : c ≤ 31) :
    dateLt now (updateRelaxationDate ct c now) = true :=
  relax_future ct c now hv hc1 hc31

theorem claim7_witness :
    JDate.Valid ⟨2025, 5, 15⟩ ∧ 1 ≤ 20 ∧ 20 ≤ 31 ∧
      dateLt ⟨2025, 5, 15⟩ (updateRelaxationDate CycleType.monthly 20 ⟨2025, 5, 15⟩) = true :=
  ⟨by decide, by decide, by decide,
    claim7_next_occurrence_strictly_future CycleType.monthly 20 ⟨2025, 5, 15⟩
      (by decide) (by decide) (by decide)⟩

/-- C8: For every yearly fixed source, the next-occurrence computation
returns the this-year occurrence of the cycle day (January `cycleDate` of the
reference year, the only yearly anchor the data model defines, as a source
carries only a day of month) when that occurrence is still in the future, and
the date with the same day of month in the same month one year later when the
this-year occurrence has already passed the reference date; the result is the
chronologically nearest strictly-future date of the yearly sequence. -/
theorem claim8_yearly_next_occurrence (c : Nat) (now : JDate) (hv : now.Valid)
    (hc1 : 1 ≤ c) (hc31 : c ≤ 31) :
    (mkJsDate now.year 0 c = ⟨now.year, 0, c⟩) ∧
    (dateLe (mkJsDate now.year 0 c) now = true →
      updateRelaxationDate CycleType.yearly c now = ⟨now.year + 1, 0, c⟩) ∧
    (dateLe (mkJsDate now.year 0 c) now = false →
      updateRelaxationDate CycleType.yearly c now = mkJsDate now.year 0 c) ∧
    dateLt now (updateRelaxationDate CycleType.yearly c now) = true := by
  have hjan := mkJsDate_jan now.year c hc1 hc31
  have hjan1 := mkJsDate_jan (now.year + 1) c hc1 hc31
  refine ⟨hjan, ?_, ?_, relax_future CycleType.yearly c now hv hc1 hc31⟩
  · intro hle
    simp only [updateRelaxationDate]
    rw [if_pos hle]
    exact hjan1
  · intro hle
    simp only [updateRelaxationDate]
    rw [if_neg (by simp [hle])]

theorem claim8_witness :
    JDate.Valid ⟨2025, 5, 20⟩ ∧ 1 ≤ 15 ∧ 15 ≤ 31 ∧
      ((mkJsDate 2025 0 15 = ⟨2025, 0, 15⟩) ∧
        (dateLe (mkJsDate 2025 0 15) ⟨2025, 5, 20⟩ = true →
          updateRelaxationDate CycleType.yearly 15 ⟨2025, 5, 20⟩ = ⟨2026, 0, 15⟩) ∧
        (dateLe (mkJsDate 2025 0 15) ⟨2025, 5, 20⟩ = false →
          updateRelaxationDate CycleType.yearly 15 ⟨2025, 5, 20⟩ = mkJsDate 2025 0 15) ∧
        dateLt ⟨2025, 5, 20⟩ (updateRelaxationDate CycleType.yearly 15 ⟨2025, 5, 20⟩) = true) :=
  ⟨by decide, by decide, by decide,
    claim8_yearly_next_occurrence 15 ⟨2025, 5, 20⟩ (by decide) (by decide) (by decide)⟩

/-- C1: For every wallet-debiting operation of the core — batch processing of
a due fixed expense, manual expense-transaction creation, and spontaneous
expense creation — if the wallet balance is non-negative before the operation
it is non-negative after; the batch and manual paths apply the debit only
when the current balance is at least the amount and leave the balance
unmutated when it is smaller, and the spontaneous path leaves the persisted
balance unchanged in every case (its check and write target the non-schema
`balance` path). -/
theorem claim1_balance_nonnegative (now : JDate) (st : St) (w : WalletDoc)
    (req : TxnReq) (er : ExpenseReq) (e : ExpenseDoc)
    (hw : st.wallet = some w) (h0 : 0 ≤ w.currentAmount)
    (hreq : req.transactionType = TxnKind.expense) :
    (∃ r, processExpenseSource now e st = some r ∧
      0 ≤ walletAmount r.2 ∧
      (w.currentAmount < e.amount → r.2 = st)) ∧
    (0 ≤ walletAmount (createTransactionHandler now req st).2 ∧
      (w.currentAmount < req.amount →
        walletAmount (createTransactionHandler now req st).2 = w.currentAmount)) ∧
    walletAmount (createExpenseHandler now er st).2 = w.currentAmount := by
  refine ⟨?_, ⟨?_, ?_⟩, ?_⟩
  · by_cases hlt : w.currentAmount < e.amount
    · refine ⟨(none, st), processExpenseSource_insufficient now e st w hw hlt, ?_, fun _ => rfl⟩
      show 0 ≤ walletAmount st
      rw [walletAmount_eq st w hw]
      exact h0
    · obtain ⟨t, st2, hps, hwal2, _, _, _, _, _, _⟩ :=
        processExpenseSource_spec now e st w hw hlt
      refine ⟨(some t, st2), hps, ?_, fun hc => absurd hc hlt⟩
      show 0 ≤ walletAmount st2
      rw [walletAmount_eq st2 _ hwal2]
      have hge := not_lt.mp hlt
      show 0 ≤ w.currentAmount - e.amount
      linarith
  · obtain ⟨wal, txns, incs, exps, nid⟩ := st
    simp only at hw
    subst hw
    by_cases hdel : w.isDeleted
    · simp [createTransactionHandler, walletAmount, hdel, h0]
    · by_cases hlt : w.currentAmount < req.amount
      · simp [createTransactionHandler, walletAmount, hdel, hreq, hlt, h0]
      · simp [createTransactionHandler, walletAmount, hdel, hreq, hlt]
        linarith [not_lt.mp hlt]
  · intro hlt
    obtain ⟨wal, txns, incs, exps, nid⟩ := st
    simp only at hw
    subst hw
    by_cases hdel : w.isDeleted
    · simp [createTransactionHandler, walletAmount, hdel]
    · simp [createTransactionHandler, walletAmount, hdel, hreq, hlt]
  · obtain ⟨wal, txns, incs, exps, nid⟩ := st
    simp only at hw
    subst hw
    by_cases hdel : w.isDeleted
    · simp [createExpenseHandler, walletAmount, hdel]
    · by_cases hfix : er.isFixedExpense.getD true
      · simp [createExpenseHandler, walletAmount, hdel, hfix]
      · simp [createExpenseHandler, walletAmount, hdel, hfix, undefinedLtNum]

theorem claim1_witness :
    (St.mk (some ⟨50, false⟩) [] [] [] 0).wallet = some (⟨50, false⟩ : WalletDoc) ∧
    (0 : Rat) ≤ (50 : Rat) ∧
    (TxnReq.mk "Lunch" none 20 TxnKind.expense none none).transactionType = TxnKind.expense ∧
    ((∃ r, processExpenseSource ⟨2025, 5, 15⟩
        ⟨0, "Rent", none, 100, true, some 15, some CycleType.monthly, none, none, false⟩
        (St.mk (some ⟨50, false⟩) [] [] [] 0) = some r ∧
      0 ≤ walletAmount r.2 ∧
      ((50 : Rat) < 100 → r.2 = St.mk (some ⟨50, false⟩) [] [] [] 0)) ∧
    (0 ≤ walletAmount (createTransactionHandler ⟨2025, 5, 15⟩
        (TxnReq.mk "Lunch" none 20 TxnKind.expense none none)
        (St.mk (some ⟨50, false⟩) [] [] [] 0)).2 ∧
      ((50 : Rat) < 20 → walletAmount (createTransactionHandler ⟨2025, 5, 15⟩
        (TxnReq.mk "Lunch" none 20 TxnKind.expense none none)
        (St.mk (some ⟨50, false⟩) [] [] [] 0)).2 = 50)) ∧
    walletAmount (createExpenseHandler ⟨2025, 5, 15⟩
        (ExpenseReq.mk "Taxi" none 20 (some false) none none none)
        (St.mk (some ⟨50, false⟩) [] [] [] 0)).2 = 50) :=
  ⟨by decide, by decide, by decide,
    claim1_balance_nonnegative ⟨2025, 5, 15⟩ (St.mk (some ⟨50, false⟩) [] [] [] 0)
      ⟨50, false⟩ (TxnReq.mk "Lunch" none 20 TxnKind.expense none none)
      (ExpenseReq.mk "Taxi" none 20 (some false) none none none)
      ⟨0, "Rent", none, 100, true, some 15, some CycleType.monthly, none, none, false⟩
      (by decide) (by decide) (by decide)⟩

/-- C2: For every non-deleted fixed source that is due on the reference date
(and, for an expense, whose wallet balance is at least the source amount),
one processing step appends exactly one Transaction whose amount equals the
source amount and whose title is "Added Income for name on date", or
"Added Expense for name on date", and changes the wallet balance by exactly
plus the amount for an income source and minus the amount for an expense
source. -/
theorem claim2_due_processing (now : JDate) (st : St) (w : WalletDoc)
    (inc : IncomeDoc) (e : ExpenseDoc) (hw : st.wallet = some w)
    (_hincD : inc.isDeleted = false) (_heD : e.isDeleted = false) :
    (shouldProcessIncome inc now = true →
      ∃ t st2, processIncomeSource now inc st = some (t, st2) ∧
        st2.txns = st.txns ++ [t] ∧
        t.amount = inc.amount ∧
        t.transactionType = TxnKind.income ∧
        t.title = "Added Income for " ++ inc.name ++ " on " ++ formatDate now ∧
        walletAmount st2 = w.currentAmount + inc.amount) ∧
    (shouldProcessExpense e now = true → e.amount ≤ w.currentAmount →
      ∃ t st2, processExpenseSource now e st = some (some t, st2) ∧
        st2.txns = st.txns ++ [t] ∧
        t.amount = e.amount ∧
        t.transactionType = TxnKind.expense ∧
        t.title = "Added Expense for " ++ e.name ++ " on " ++ formatDate now ∧
        walletAmount st2 = w.currentAmount - e.amount) := by
  constructor
  · intro _
    obtain ⟨t, st2, hps, _, hwal2, htx, _, hamt, hty, hti⟩ :=
      processIncomeSource_spec now inc st w hw
    refine ⟨t, st2, hps, htx, hamt, hty, hti, ?_⟩
    rw [walletAmount_eq st2 _ hwal2]
  · intro _ hsuff
    have hnlt : ¬ w.currentAmount < e.amount := not_lt.mpr hsuff
    obtain ⟨t, st2, hps, hwal2, htx, _, _, hamt, hty, hti⟩ :=
      processExpenseSource_spec now e st w hw hnlt
    refine ⟨t, st2, hps, htx, hamt, hty, hti, ?_⟩
    rw [walletAmount_eq st2 _ hwal2]

theorem claim2_witness :
    (St.mk (some ⟨2000, false⟩) [] [] [] 7).wallet = some (⟨2000, false⟩ : WalletDoc) ∧
    (IncomeDoc.mk 0 "Salary" none 1000 15 CycleType.monthly none false).isDeleted = false ∧
    (ExpenseDoc.mk 1 "Rent" none 300 true (some 15) (some CycleType.monthly)
      none none false).isDeleted = false ∧
    ((shouldProcessIncome ⟨0, "Salary", none, 1000, 15, CycleType.monthly, none, false⟩
        ⟨2025, 5, 15⟩ = true →
      ∃ t st2, processIncomeSource ⟨2025, 5, 15⟩
          ⟨0, "Salary", none, 1000, 15, CycleType.monthly, none, false⟩
          (St.mk (some ⟨2000, false⟩) [] [] [] 7) = some (t, st2) ∧
        st2.txns = (St.mk (some ⟨2000, false⟩) [] [] [] 7).txns ++ [t] ∧
        t.amount = 1000 ∧
        t.transactionType = TxnKind.income ∧
        t.title = "Added Income for " ++ "Salary" ++ " on " ++ formatDate ⟨2025, 5, 15⟩ ∧
        walletAmount st2 = 2000 + 1000) ∧
    (shouldProcessExpense ⟨1, "Rent", none, 300, true, some 15, some CycleType.monthly,
        none, none, false⟩ ⟨2025, 5, 15⟩ = true →
      (300 : Rat) ≤ 2000 →
      ∃ t st2, processExpenseSource ⟨2025, 5, 15⟩
          ⟨1, "Rent", none, 300, true, some 15, some CycleType.monthly, none, none, false⟩
          (St.mk (some ⟨2000, false⟩) [] [] [] 7) = some (some t, st2) ∧
        st2.txns = (St.mk (some ⟨2000, false⟩) [] [] [] 7).txns ++ [t] ∧
        t.amount = 300 ∧
        t.transactionType = TxnKind.expense ∧
        t.title = "Added Expense for " ++ "Rent" ++ " on " ++ formatDate ⟨2025, 5, 15⟩ ∧
        walletAmount st2 = 2000 - 300)) :=
  ⟨by decide, by decide, by decide,
    claim2_due_processing ⟨2025, 5, 15⟩ (St.mk (some ⟨2000, false⟩) [] [] [] 7)
      ⟨2000, false⟩ ⟨0, "Salary", none, 1000, 15, CycleType.monthly, none, false⟩
      ⟨1, "Rent", none, 300, true, some 15, some CycleType.monthly, none, none, false⟩
      (by decide) (by decide) (by decide)⟩

/-- C3: For every due fixed expense source whose wallet balance is strictly
less than the source amount, processing creates no Transaction, leaves the
whole store (balance and the relaxation date of the source included)
unchanged, and the batch loop records the outcome as insufficient funds
rather than processed. -/
theorem claim3_insufficient_funds (now : JDate) (st : St) (w : WalletDoc) (e : ExpenseDoc)
    (hw : st.wallet = some w) (hdue : shouldProcessExpense e now = true)
    (hlt : w.currentAmount < e.amount) :
    processExpenseSource now e st = some (none, st) ∧
    ∀ (rest : List (ExpenseDoc × Option (St → St))),
      (runExpenseDocs now ((e, none) :: rest) st).2 =
        EOutcome.insufficient :: (runExpenseDocs now rest st).2 := by
  have h1 : processExpenseSource now e st = some (none, st) :=
    processExpenseSource_insufficient now e st w hw hlt
  refine ⟨h1, ?_⟩
  intro rest
  have hstep : expenseStep now e st = (EOutcome.insufficient, st) := by
    simp [expenseStep, hdue, h1]
  simp [runExpenseDocs, hstep]

theorem claim3_witness :
    (St.mk (some ⟨100, false⟩) [] [] [] 3).wallet = some (⟨100, false⟩ : WalletDoc) ∧
    shouldProcessExpense ⟨0, "Car EMI", none, 15000, true, some 1, some CycleType.monthly,
        none, none, false⟩ ⟨2025, 8, 1⟩ = true ∧
    (100 : Rat) < 15000 ∧
    (processExpenseSource ⟨2025, 8, 1⟩
        ⟨0, "Car EMI", none, 15000, true, some 1, some CycleType.monthly, none, none, false⟩
        (St.mk (some ⟨100, false⟩) [] [] [] 3)
      = some (none, St.mk (some ⟨100, false⟩) [] [] [] 3) ∧
      ∀ (rest : List (ExpenseDoc × Option (St → St))),
        (runExpenseDocs ⟨2025, 8, 1⟩
          ((⟨0, "Car EMI", none, 15000, true, some 1, some CycleType.monthly,
              none, none, false⟩, none) :: rest)
          (St.mk (some ⟨100, false⟩) [] [] [] 3)).2 =
          EOutcome.insufficient :: (runExpenseDocs ⟨2025, 8, 1⟩ rest
            (St.mk (some ⟨100, false⟩) [] [] [] 3)).2) :=
  ⟨by decide, by decide, by decide,
    claim3_insufficient_funds ⟨2025, 8, 1⟩ (St.mk (some ⟨100, false⟩) [] [] [] 3)
      ⟨100, false⟩
      ⟨0, "Car EMI", none, 15000, true, some 1, some CycleType.monthly, none, none, false⟩
      (by decide) (by decide) (by decide)⟩

/-- C4: (code-bug evaluation) A spontaneous expense creation request whose
amount (500) strictly exceeds the wallet balance (100) is NOT rejected
end-to-end: the handler answers 201, persists the Expense row and a
Transaction row, and leaves the balance unchanged, because its insufficiency
check compares the non-schema `wallet.balance` path (`undefined < amount`,
always false) instead of `currentAmount`. -/
theorem claim4_overdraft_not_rejected :
    (100 : Rat) < 500 ∧
    (createExpenseHandler ⟨2025, 5, 15⟩
        (ExpenseReq.mk "Car Repair" none 500 (some false) none none (some ⟨2025, 5, 15⟩))
        (St.mk (some ⟨100, false⟩) [] [] [] 0)).1 = 201 ∧
    (createExpenseHandler ⟨2025, 5, 15⟩
        (ExpenseReq.mk "Car Repair" none 500 (some false) none none (some ⟨2025, 5, 15⟩))
        (St.mk (some ⟨100, false⟩) [] [] [] 0)).2.expenses.length = 1 ∧
    (createExpenseHandler ⟨2025, 5, 15⟩
        (ExpenseReq.mk "Car Repair" none 500 (some false) none none (some ⟨2025, 5, 15⟩))
        (St.mk (some ⟨100, false⟩) [] [] [] 0)).2.txns.length = 1 ∧
    walletAmount (createExpenseHandler ⟨2025, 5, 15⟩
        (ExpenseReq.mk "Car Repair" none 500 (some false) none none (some ⟨2025, 5, 15⟩))
        (St.mk (some ⟨100, false⟩) [] [] [] 0)).2 = 100 := by
  refine ⟨by norm_num, rfl, rfl, rfl, rfl⟩

/-- C6: (code-bug evaluation) For a spontaneous expense with balance 1000 and
amount 200 the handler does create exactly one Transaction titled
"Expense: Taxi" dated at the entry date, but the persisted balance stays 1000
instead of becoming 800 (the write targets the non-schema `balance` path);
and a spontaneous income creation always fails with status 500 and no
persisted effect, because the Income schema unconditionally requires the
cycle fields that the route omits for spontaneous requests, so no income
transaction or balance credit ever happens either. -/
theorem claim6_spontaneous_ledger_effects :
    (createExpenseHandler ⟨2025, 5, 15⟩
        (ExpenseReq.mk "Taxi" none 200 (some false) none none (some ⟨2025, 4, 10⟩))
        (St.mk (some ⟨1000, false⟩) [] [] [] 0)).1 = 201 ∧
    (createExpenseHandler ⟨2025, 5, 15⟩
        (ExpenseReq.mk "Taxi" none 200 (some false) none none (some ⟨2025, 4, 10⟩))
        (St.mk (some ⟨1000, false⟩) [] [] [] 0)).2.txns.map Txn.title = ["Expense: Taxi"] ∧
    (createExpenseHandler ⟨2025, 5, 15⟩
        (ExpenseReq.mk "Taxi" none 200 (some false) none none (some ⟨2025, 4, 10⟩))
        (St.mk (some ⟨1000, false⟩) [] [] [] 0)).2.txns.map Txn.transactionDate
      = [⟨2025, 4, 10⟩] ∧
    (createExpenseHandler ⟨2025, 5, 15⟩
        (ExpenseReq.mk "Taxi" none 200 (some false) none none (some ⟨2025, 4, 10⟩))
        (St.mk (some ⟨1000, false⟩) [] [] [] 0)).2.txns.map Txn.amount = [200] ∧
    walletAmount (createExpenseHandler ⟨2025, 5, 15⟩
        (ExpenseReq.mk "Taxi" none 200 (some false) none none (some ⟨2025, 4, 10⟩))
        (St.mk (some ⟨1000, false⟩) [] [] [] 0)).2 = 1000 ∧
    ¬ walletAmount (createExpenseHandler ⟨2025, 5, 15⟩
        (ExpenseReq.mk "Taxi" none 200 (some false) none none (some ⟨2025, 4, 10⟩))
        (St.mk (some ⟨1000, false⟩) [] [] [] 0)).2 = 1000 - 200 ∧
    createIncomeHandler
        (IncomeReq.mk "Gift" none 300 (some false) none none (some ⟨2025, 4, 10⟩))
        (St.mk (some ⟨1000, false⟩) [] [] [] 0)
      = (500, St.mk (some ⟨1000, false⟩) [] [] [] 0) := by
  refine ⟨rfl, by decide, by decide, by decide, rfl, ?_, rfl⟩
  show ¬ (1000 : Rat) = 1000 - 200
  norm_num

/-- C10: Soft-deleting a Transaction changes only its `isDeleted` and
`deletedAt` fields; the handler leaves the wallet balance and the other
collections untouched, every other field of the transaction is unchanged,
and the soft-deleted transaction is thereafter excluded from the
listing/summary queries, which select only `isDeleted = false`. -/
theorem claim10_soft_delete_frame (now : JDate) (st : St) (tid : Nat) (t : Txn)
    (hfind : st.txns.find? (fun x => x.id == tid && !x.isDeleted) = some t) :
    (deleteTransactionHandler now tid st).1 = 200 ∧
    (deleteTransactionHandler now tid st).2.wallet = st.wallet ∧
    (deleteTransactionHandler now tid st).2.incomes = st.incomes ∧
    (deleteTransactionHandler now tid st).2.expenses = st.expenses ∧
    (deleteTransactionHandler now tid st).2.txns =
      st.txns.map (fun x => if x.id == t.id then Txn.softDelete t now else x) ∧
    (Txn.softDelete t now).id = t.id ∧
    (Txn.softDelete t now).walletId = t.walletId ∧
    (Txn.softDelete t now).userId = t.userId ∧
    (Txn.softDelete t now).title = t.title ∧
    (Txn.softDelete t now).description = t.description ∧
    (Txn.softDelete t now).file = t.file ∧
    (Txn.softDelete t now).amount = t.amount ∧
    (Txn.softDelete t now).transactionType = t.transactionType ∧
    (Txn.softDelete t now).transactionDate = t.transactionDate ∧
    (Txn.softDelete t now).isDeleted = true ∧
    (Txn.softDelete t now).deletedAt = some now ∧
    Txn.softDelete t now ∉ listTransactions (deleteTransactionHandler now tid st).2 := by
  unfold deleteTransactionHandler
  rw [hfind]
  refine ⟨rfl, rfl, rfl, rfl, rfl, rfl, rfl, rfl, rfl, rfl, rfl, rfl, rfl, rfl, rfl, rfl, ?_⟩
  intro hmem
  unfold listTransactions at hmem
  have hkeep := List.of_mem_filter hmem
  simp [Txn.softDelete] at hkeep

theorem claim10_witness :
    (St.mk (some ⟨100, false⟩)
        [⟨5, 0, 0, "Lunch", none, none, 20, TxnKind.expense, ⟨2025, 5, 15⟩, false, none⟩]
        [] [] 6).txns.find? (fun x => x.id == 5 && !x.isDeleted)
      = some ⟨5, 0, 0, "Lunch", none, none, 20, TxnKind.expense, ⟨2025, 5, 15⟩, false, none⟩ ∧
    ((deleteTransactionHandler ⟨2025, 5, 16⟩ 5
        (St.mk (some ⟨100, false⟩)
          [⟨5, 0, 0, "Lunch", none, none, 20, TxnKind.expense, ⟨2025, 5, 15⟩, false, none⟩]
          [] [] 6)).1 = 200 ∧
      (deleteTransactionHandler ⟨2025, 5, 16⟩ 5
        (St.mk (some ⟨100, false⟩)
          [⟨5, 0, 0, "Lunch", none, none, 20, TxnKind.expense, ⟨2025, 5, 15⟩, false, none⟩]
          [] [] 6)).2.wallet = some ⟨100, false⟩ ∧
      Txn.softDelete
          ⟨5, 0, 0, "Lunch", none, none, 20, TxnKind.expense, ⟨2025, 5, 15⟩, false, none⟩
          ⟨2025, 5, 16⟩ ∉
        listTransactions (deleteTransactionHandler ⟨2025, 5, 16⟩ 5
          (St.mk (some ⟨100, false⟩)
            [⟨5, 0, 0, "Lunch", none, none, 20, TxnKind.expense, ⟨2025, 5, 15⟩, false, none⟩]
            [] [] 6)).2) := by
  have h := claim10_soft_delete_frame ⟨2025, 5, 16⟩
    (St.mk (some ⟨100, false⟩)
      [⟨5, 0, 0, "Lunch", none, none, 20, TxnKind.expense, ⟨2025, 5, 15⟩, false, none⟩]
      [] [] 6) 5
    ⟨5, 0, 0, "Lunch", none, none, 20, TxnKind.expense, ⟨2025, 5, 15⟩, false, none⟩
    (by decide)
  exact ⟨by decide, h.1, h.2.1, h.2.2.2.2.2.2.2.2.2.2.2.2.2.2.2.2⟩

/-- C9: Within one batch run, a caught failure while processing one source
never prevents any other source from being attempted: a run over a
concatenation decomposes into the two sub-runs (the tail runs whatever
happened in the front, faults included), every snapshot element yields
exactly one recorded outcome, a non-faulted head performs one step whose
outcome follows the due check and the ledger mutator (processed, or
insufficient on a null result, or a caught-and-logged failure on a throw,
with the store unchanged), and the per-outcome counts partition the total,
completing the run statistics. -/
theorem claim9_failure_isolation (now : JDate) :
    (∀ (xs ys : List (ExpenseDoc × Option (St → St))) (st : St),
      runExpenseDocs now (xs ++ ys) st =
        ((runExpenseDocs now ys (runExpenseDocs now xs st).1).1,
          (runExpenseDocs now xs st).2 ++
            (runExpenseDocs now ys (runExpenseDocs now xs st).1).2)) ∧
    (∀ (xs ys : List (IncomeDoc × Option (St → St))) (st : St),
      runIncomeDocs now (xs ++ ys) st =
        ((runIncomeDocs now ys (runIncomeDocs now xs st).1).1,
          (runIncomeDocs now xs st).2 ++
            (runIncomeDocs now ys (runIncomeDocs now xs st).1).2)) ∧
    (∀ (l : List (ExpenseDoc × Option (St → St))) (st : St),
      (runExpenseDocs now l st).2.length = l.length) ∧
    (∀ (l : List (IncomeDoc × Option (St → St))) (st : St),
      (runIncomeDocs now l st).2.length = l.length) ∧
    (∀ (l : List (ExpenseDoc × Option (St → St))) (st : St),
      (runExpenseDocs now l st).2.count EOutcome.processed +
        (runExpenseDocs now l st).2.count EOutcome.insufficient +
        (runExpenseDocs now l st).2.count EOutcome.skipped +
        (runExpenseDocs now l st).2.count EOutcome.failed = l.length) ∧
    (∀ (l : List (IncomeDoc × Option (St → St))) (st : St),
      (runIncomeDocs now l st).2.count IOutcome.processed +
        (runIncomeDocs now l st).2.count IOutcome.skipped +
        (runIncomeDocs now l st).2.count IOutcome.failed = l.length) ∧
    (∀ (e : ExpenseDoc) (rest : List (ExpenseDoc × Option (St → St))) (st : St),
      runExpenseDocs now ((e, none) :: rest) st =
        ((runExpenseDocs now rest (expenseStep now e st).2).1,
          (expenseStep now e st).1 ::
            (runExpenseDocs now rest (expenseStep now e st).2).2)) ∧
    (∀ (i : IncomeDoc) (rest : List (IncomeDoc × Option (St → St))) (st : St),
      runIncomeDocs now ((i, none) :: rest) st =
        ((runIncomeDocs now rest (incomeStep now i st).2).1,
          (incomeStep now i st).1 ::
            (runIncomeDocs now rest (incomeStep now i st).2).2)) ∧
    (∀ (e : ExpenseDoc) (st : St),
      expenseStep now e st =
        if shouldProcessExpense e now then
          match processExpenseSource now e st with
          | some p =>
            ((if p.1.isSome then EOutcome.processed else EOutcome.insufficient), p.2)
          | none => (EOutcome.failed, st)
        else (EOutcome.skipped, st)) ∧
    (∀ (i : IncomeDoc) (st : St),
      incomeStep now i st =
        if shouldProcessIncome i now then
          match processIncomeSource now i st with
          | some p => (IOutcome.processed, p.2)
          | none => (IOutcome.failed, st)
        else (IOutcome.skipped, st)) := by
  refine ⟨runExpenseDocs_append now, runIncomeDocs_append now,
    runExpenseDocs_length now, runIncomeDocs_length now, ?_, ?_, ?_, ?_, ?_, ?_⟩
  · intro l st
    rw [eoutcome_count_partition, runExpenseDocs_length]
  · intro l st
    rw [ioutcome_count_partition, runIncomeDocs_length]
  · intro e rest st
    rfl
  · intro i rest st
    rfl
  · intro e st
    rfl
  · intro i st
    rfl

/-- C5 (counterexample): the claim that a second same-day run skips every
source processed by the first run is false on the code: a monthly income
source with cycle day 15 and reference date June 15 2025 is Processed by the
first run and Processed again, not Skipped, by the second run with the same
reference date, and a quarterly source with cycle day 15 and reference date
July 15 2025 likewise, because the monthly and quarterly due checks consult
only day-of-month (and month) equality and never the advanced
`relaxationDate`. -/
theorem claim5_counterexample :
    (incomeRun ⟨2025, 5, 15⟩
        (St.mk (some ⟨0, false⟩) []
          [⟨0, "Salary", none, 5, 15, CycleType.monthly, none, false⟩] [] 1)).2
      = [IOutcome.processed] ∧
    (incomeRun ⟨2025, 5, 15⟩
        (incomeRun ⟨2025, 5, 15⟩
          (St.mk (some ⟨0, false⟩) []
            [⟨0, "Salary", none, 5, 15, CycleType.monthly, none, false⟩] [] 1)).1).2
      = [IOutcome.processed] ∧
    (incomeRun ⟨2025, 6, 15⟩
        (St.mk (some ⟨0, false⟩) []
          [⟨0, "Dividend", none, 5, 15, CycleType.quarterly, none, false⟩] [] 1)).2
      = [IOutcome.processed] ∧
    (incomeRun ⟨2025, 6, 15⟩
        (incomeRun ⟨2025, 6, 15⟩
          (St.mk (some ⟨0, false⟩) []
            [⟨0, "Dividend", none, 5, 15, CycleType.quarterly, none, false⟩] [] 1)).1).2
      = [IOutcome.processed] ∧
    IOutcome.processed ≠ IOutcome.skipped :=
  ⟨by decide, by decide, by decide, by decide, by decide⟩

/-- C5 (amended): Running the batch driver twice with the same reference date,
with no external changes between the runs and a resolving wallet, yields a
second run in which every yearly fixed source that was Processed on the first
run is Skipped(not-due) on the second (its advanced `relaxationDate` is
strictly in the future and the yearly due check consults it); monthly and
quarterly sources, whose due check ignores `relaxationDate`, are processed
again, as the counterexample records. -/
theorem claim5_second_run_skips_yearly (d : JDate) (st : St) (hv : d.Valid)
    (hws : st.wallet.isSome = true)
    (hnd : (st.incomes.map IncomeDoc.id).Nodup)
    (j : Nat) (i : IncomeDoc)
    (hsnap : (activeIncomes st).get? j = some i)
    (hy : i.cycleType = CycleType.yearly)
    (hp1 : (incomeRun d st).2.get? j = some IOutcome.processed) :
    (incomeRun d (incomeRun d st).1).2.get? j = some IOutcome.skipped := by
  have hdue : shouldProcessIncome i d = true := by
    rw [incomeRun_outcomes d st hws, List.get?_map, hsnap] at hp1
    simp only [Option.map_some'] at hp1
    by_contra hB
    rw [Bool.not_eq_true] at hB
    rw [hB] at hp1
    simp at hp1
  have hws1 : (incomeRun d st).1.wallet.isSome = true := incomeRun_wallet d st hws
  have hsnap2 : activeIncomes (incomeRun d st).1 =
      (activeIncomes st).map (dueUpd d (activeIncomes st)) := by
    unfold activeIncomes
    rw [incomeRun_incomes d st hws hnd]
    exact filter_map_comm _ _ (fun x => by rw [dueUpd_isDeleted]) st.incomes
  have hmem : i ∈ activeIncomes st := List.get?_mem hsnap
  have hany : (activeIncomes st).any (fun j2 => j2.id == i.id) = true :=
    List.any_eq_true.mpr ⟨i, hmem, by simp⟩
  have hdu : dueUpd d (activeIncomes st) i = relaxUpdI d i := by
    unfold dueUpd
    rw [hany, hdue]
    simp
  have hnotdue := relax_not_due_yearly d i hv hy hdue
  rw [incomeRun_outcomes d (incomeRun d st).1 hws1, hsnap2, List.map_map,
    List.get?_map, hsnap]
  simp only [Option.map_some', Function.comp_apply]
  rw [hdu, hnotdue]
  simp

theorem claim5_witness :
    JDate.Valid ⟨2025, 0, 15⟩ ∧
    (St.mk (some ⟨0, false⟩) []
        [⟨0, "Bonus", none, 7, 15, CycleType.yearly, none, false⟩] [] 1).wallet.isSome
      = true ∧
    ((St.mk (some ⟨0, false⟩) []
        [⟨0, "Bonus", none, 7, 15, CycleType.yearly, none, false⟩] [] 1).incomes.map
        IncomeDoc.id).Nodup ∧
    (activeIncomes (St.mk (some ⟨0, false⟩) []
        [⟨0, "Bonus", none, 7, 15, CycleType.yearly, none, false⟩] [] 1)).get? 0
      = some ⟨0, "Bonus", none, 7, 15, CycleType.yearly, none, false⟩ ∧
    (IncomeDoc.mk 0 "Bonus" none 7 15 CycleType.yearly none false).cycleType
      = CycleType.yearly ∧
    (incomeRun ⟨2025, 0, 15⟩ (St.mk (some ⟨0, false⟩) []
        [⟨0, "Bonus", none, 7, 15, CycleType.yearly, none, false⟩] [] 1)).2.get? 0
      = some IOutcome.processed ∧
    (incomeRun ⟨2025, 0, 15⟩ (incomeRun ⟨2025, 0, 15⟩ (St.mk (some ⟨0, false⟩) []
        [⟨0, "Bonus", none, 7, 15, CycleType.yearly, none, false⟩] [] 1)).1).2.get? 0
      = some IOutcome.skipped :=
  ⟨by decide, by decide, by decide, by decide, by decide, by decide,
    claim5_second_run_skips_yearly ⟨2025, 0, 15⟩
      (St.mk (some ⟨0, false⟩) []
        [⟨0, "Bonus", none, 7, 15, CycleType.yearly, none, false⟩] [] 1)
      (by decide) (by decide) (by decide) 0
      ⟨0, "Bonus", none, 7, 15, CycleType.yearly, none, false⟩
      (by decide) (by decide) (by decide)⟩
